import Mathlib

/-!
Verification development for the news-trader repository.

Shallow embedding of the trade-lifecycle orchestrator (src/trader.ts), the
contract selector (Trader.findEntryContract), the exit-rule engine
(Trader.processOneLeg, Trader.closeLeg), the reentrancy-guarded tick
(Trader.check), the backoff executor (src/retry-helper.ts
RetryHelper.withRetry) and the session client request path (APIClient.call
with auth-expiry replay).  Numbers are modelled as rationals; JavaScript
Math.floor and Math.round are modelled explicitly; NaN-poisoned comparison
chains (an absent bid) are modelled by an Option match that selects no rule,
which coincides with the behaviour of the source.
-/

namespace NewsTrader

/-- JavaScript Math.floor on a rational. -/
def jsFloor (x : ℚ) : ℤ := ⌊x⌋

/-- JavaScript Math.round on a rational (round half towards positive infinity). -/
def jsRound (x : ℚ) : ℤ := ⌊x + 1/2⌋

/-- Math.round(x * 100) / 100 — rounding to two decimal places as in closeLeg. -/
def round2 (x : ℚ) : ℚ := ((jsRound (x * 100) : ℤ) : ℚ) / 100

/-- Split a character list on a separator character, JavaScript split semantics. -/
def splitOnChar (sep : Char) : List Char → List (List Char)
  | [] => [[]]
  | c :: cs =>
    match splitOnChar sep cs with
    | [] => [[]]
    | w :: ws => if c = sep then [] :: w :: ws else (c :: w) :: ws

/-- Numeric value of a decimal digit character, none for non-digits. -/
def charDigit (c : Char) : Option ℕ :=
  if c.isDigit then some (c.toNat - 48) else none

/-- Parse a non-empty all-digit character list as a natural number. -/
def parseDigits : List Char → Option ℕ
  | [] => none
  | cs => cs.foldl (fun acc c => acc.bind (fun n => (charDigit c).map (fun d => n * 10 + d))) (some 0)

/-- Parse a decimal literal (digits, optionally a dot and digits) as a rational;
models parseFloat on the well-formed strike tokens appearing in instrument names. -/
def parseDecimal (cs : List Char) : Option ℚ :=
  match splitOnChar (Char.ofNat 46) cs with
  | [ip] => (parseDigits ip).map (fun n => (n : ℚ))
  | [ip, fp] =>
    match parseDigits ip, parseDigits fp with
    | some n, some f => some ((n : ℚ) + (f : ℚ) / (10 : ℚ) ^ fp.length)
    | _, _ => none
  | _ => none

/-- Does the list end with the given suffix (String.prototype.endsWith). -/
def charListEndsWith (l suffix : List Char) : Bool :=
  decide (suffix.length ≤ l.length) && decide (l.drop (l.length - suffix.length) = suffix)

/-- Does sub occur as a contiguous sublist of l (String.prototype.includes). -/
def charListHasSub (sub l : List Char) : Bool :=
  (List.range (l.length + 1)).any (fun i => decide ((l.drop i).take sub.length = sub))

/-- Leg kinds, LegTypeEnum in trader.ts. -/
inductive LegType where
  | Put : LegType
  | Call : LegType
deriving DecidableEq

/-- utils.ts oppositeLeg. -/
def oppositeLeg : LegType → LegType
  | LegType.Put => LegType.Call
  | LegType.Call => LegType.Put

/-- Lifecycle states, StatusType in trader.ts. -/
inductive StatusType where
  | Idle : StatusType
  | Dealing : StatusType
  | Position : StatusType
  | Won : StatusType
deriving DecidableEq

/-- Snapshot of one tradeable instrument (the fields of Market used by the core). -/
structure Market where
  instrumentName : String
  epic : String
  bid : Option ℚ
  offer : Option ℚ
deriving DecidableEq

/-- Fill confirmation fields used by the core (DealConfirmation). -/
structure DealConfirmation where
  dealReference : String
  level : ℚ
  size : ℚ
deriving DecidableEq

/-- Open position fields used by the core (Position). -/
structure Position where
  dealId : String
  dealReference : String
  level : ℚ
  size : ℚ
deriving DecidableEq

/-- Per-leg state, LegDealStatus in src/trader.ts: contract snapshot, deal
reference and confirmation, optional live position, and the three one-shot
partial-exit flags. -/
structure LegDealStatus where
  contract : Market
  dealReference : String
  dealConfirmation : DealConfirmation
  position : Option Position
  loosingPartSold : Bool
  x2PartSold : Bool
  x3PartSold : Bool
deriving DecidableEq

/-- The trade-cycle aggregate, DealingStatus in trader.ts. -/
structure DealingStatus where
  status : StatusType
  put : Option LegDealStatus
  call : Option LegDealStatus
deriving DecidableEq

/-- Leg slot accessor (globalStatus[leg]). -/
def DealingStatus.leg (st : DealingStatus) : LegType → Option LegDealStatus
  | LegType.Put => st.put
  | LegType.Call => st.call

/-- Leg slot update (globalStatus[leg] = v). -/
def DealingStatus.setLeg (st : DealingStatus) : LegType → Option LegDealStatus → DealingStatus
  | LegType.Put, v => { st with put := v }
  | LegType.Call, v => { st with call := v }

/-- Risk constants fixed in the Trader constructor. -/
def loosingLevel : ℚ := 1/2

/-- Fraction sold by the stop rule (constructor constant _loosingExitSize). -/
def loosingExitSize : ℚ := 1/2

/-- Profit tier 2 threshold (constructor constant _x2WinningLevel). -/
def x2WinningLevel : ℚ := 2

/-- Fraction sold by the tier-2 rule (constructor constant _x2ExitSize). -/
def x2ExitSize : ℚ := 1/2

/-- Profit tier 3 threshold (constructor constant _x3WinningLevel). -/
def x3WinningLevel : ℚ := 3

/-- Fraction sold by the tier-3 rule (constructor constant _x3ExitSize). -/
def x3ExitSize : ℚ := 1/3

/-- Strike extracted from an instrument name: parseFloat of the
second-to-last space-separated token (instrumentName.split of a space,
element at index length minus two). -/
def strikeOf (m : Market) : Option ℚ :=
  let parts := splitOnChar (Char.ofNat 32) m.instrumentName.toList
  if 2 ≤ parts.length then (parts.get? (parts.length - 2)).bind parseDecimal else none

/-- Upper-case name suffix used by the entry filter (leg.toUpperCase()). -/
def legSuffix : LegType → String
  | LegType.Put => "PUT"
  | LegType.Call => "CALL"

/-- Sign of the configured strike distance for a leg (put below, call above). -/
def legSign : LegType → ℚ
  | LegType.Put => -1
  | LegType.Call => 1

/-- Sort key used by the entry-selection comparator: absolute distance of the
parsed strike from price plus signed delta.  A strike that fails to parse is
given distance from 0; all theorems about selection assume parseable names. -/
def strikeDistance (price delta : ℚ) (leg : LegType) (m : Market) : ℚ :=
  |((strikeOf m).getD 0) - (price + legSign leg * delta)|

/-- Stable insertion of x into a list held in descending key order: x goes
after every strictly-larger key and before the first equal-or-smaller key,
matching the stable JavaScript sort with comparator bKey - aKey. -/
def insertDesc (key : Market → ℚ) (x : Market) : List Market → List Market
  | [] => [x]
  | y :: ys => if key y ≤ key x then x :: y :: ys else y :: insertDesc key x ys

/-- Stable descending sort by key, modelling Array.prototype.sort with the
comparator returning bKey - aKey. -/
def sortDesc (key : Market → ℚ) : List Market → List Market
  | [] => []
  | x :: xs => insertDesc key x (sortDesc key xs)

/-- Verification-side predicate: the last element of the list, when it
exists, has the minimal key among the list elements. -/
def lastIsMin (key : Market → ℚ) (l : List Market) : Prop :=
  ∀ z, l.getLast? = some z → ∀ y ∈ l, key z ≤ key y

/-- Trader.findEntryContract for one leg: filter the option list by name
suffix, sort by descending distance from price plus signed delta, take the
last element (the minimal distance). -/
def findEntryContract (options : List Market) (price delta : ℚ) (leg : LegType) : Option Market :=
  (sortDesc (strikeDistance price delta leg)
    (options.filter (fun m => charListEndsWith m.instrumentName.toList (legSuffix leg).toList))).getLast?

/-- Entry size from budget and the summed offers of the two selected
contracts: Math.max(Math.floor(budget * 50 / denomo) / 50, 0.02). -/
def entrySize (budget denomo : ℚ) : ℚ :=
  max (((jsFloor (budget * 50 / denomo) : ℤ) : ℚ) / 50) (2/100)

/-- The three partial-exit rules of Trader.processOneLeg, named after the
one-shot flag each one sets. -/
inductive SellKind where
  | loosing : SellKind
  | x3 : SellKind
  | x2 : SellKind
deriving DecidableEq

/-- Read the one-shot flag that gates a rule. -/
def flagOf : SellKind → LegDealStatus → Bool
  | SellKind.loosing, d => d.loosingPartSold
  | SellKind.x3, d => d.x3PartSold
  | SellKind.x2, d => d.x2PartSold

/-- Set the one-shot flag of a rule after its sell confirmed. -/
def setFlag : SellKind → LegDealStatus → LegDealStatus
  | SellKind.loosing, d => { d with loosingPartSold := true }
  | SellKind.x3, d => { d with x3PartSold := true }
  | SellKind.x2, d => { d with x2PartSold := true }

/-- Rule selection of Trader.processOneLeg (src/trader.ts lines 602-633): a
live position is required; winRatio is bid divided by the confirmed entry
level; the if/else chain tests the stop rule, then tier 3, then tier 2, each
with a strict inequality and gated by its unset flag.  An absent bid makes
every comparison of the source false (NaN), modelled by selecting no rule. -/
def processOneLegDecision (d : LegDealStatus) : Option (SellKind × ℚ) :=
  match d.position, d.contract.bid with
  | some pos, some bid =>
    if 0 < pos.size then
      if bid / d.dealConfirmation.level < loosingLevel ∧ d.loosingPartSold = false then
        some (SellKind.loosing, loosingExitSize)
      else if x3WinningLevel < bid / d.dealConfirmation.level ∧ d.x3PartSold = false then
        some (SellKind.x3, x3ExitSize)
      else if x2WinningLevel < bid / d.dealConfirmation.level ∧ d.x2PartSold = false then
        some (SellKind.x2, x2ExitSize)
      else none
    else none
  | _, _ => none

/-- The close request handed to APIClient.closePosition by Trader.closeLeg. -/
structure CloseRequest where
  dealId : String
  size : ℚ
  level : Option ℚ
deriving DecidableEq

/-- Trader.closeLeg (src/trader.ts lines 441-468): requires a live position
of positive size; relSize is the fraction of the current position size,
rounded to two decimals and clamped below at 0.01; absSize is the fraction
of the initial confirmed size, rounded to two decimals and clamped above at
the current position size; posRelative selects which one is requested. -/
def closeLeg (legData : Option LegDealStatus) (percent : ℚ) (posRelative : Bool) :
    Except String CloseRequest :=
  match legData with
  | some d =>
    match d.position with
    | some pos =>
      if 0 < pos.size then
        let relSize0 := round2 (pos.size * percent)
        let relSize := if relSize0 < 1/100 then 1/100 else relSize0
        let absSize0 := round2 (d.dealConfirmation.size * percent)
        let absSize := if pos.size < absSize0 then pos.size else absSize0
        Except.ok
          { dealId := pos.dealId
            size := if posRelative then relSize else absSize
            level := d.contract.bid.map (fun b => b / 2) }
      else Except.error "No such leg or positions closed"
    | none => Except.error "No such leg or positions closed"
  | none => Except.error "No such leg or positions closed"

/-- The sell size prescribed by the specification sentence of claim C5:
against the currently remaining position size, rounded to two decimals,
clamped below at 0.01 and above at the remaining size. -/
def specSellSize (remaining percent : ℚ) : ℚ :=
  min (max (round2 (remaining * percent)) (1/100)) remaining

/-- The per-tick exit-rule engine written from the amended ordering of claim
C4: stop first, then tier 3, then tier 2, conditions as strict inequalities
against multiples of the entry level, each gated by its unset flag. -/
def ruleEngineSpecOrdered (d : LegDealStatus) : Option (SellKind × ℚ) :=
  match d.position, d.contract.bid with
  | some pos, some bid =>
    if 0 < pos.size then
      if bid < d.dealConfirmation.level * loosingLevel ∧ d.loosingPartSold = false then
        some (SellKind.loosing, loosingExitSize)
      else if d.dealConfirmation.level * x3WinningLevel < bid ∧ d.x3PartSold = false then
        some (SellKind.x3, x3ExitSize)
      else if d.dealConfirmation.level * x2WinningLevel < bid ∧ d.x2PartSold = false then
        some (SellKind.x2, x2ExitSize)
      else none
    else none
  | _, _ => none

/-- Refresh of one leg from the broker position list, the per-leg body of
Trader.updatePositions: the position entry is matched by deal reference; the
position is replaced by the match (or cleared when absent) and the contract
snapshot replaced when a match exists.  Flags are untouched. -/
def legUpdatePositions (d : LegDealStatus) (resp : List (Position × Market)) : LegDealStatus :=
  match resp.find? (fun pm => pm.1.dealReference == d.dealConfirmation.dealReference) with
  | some pm => { d with position := some pm.1, contract := pm.2 }
  | none => { d with position := none }

/-- Outcome application of one processOneLeg pass: when a rule fires, the
sell is invoked (the action is emitted); the flag is set only when the sell
confirmation resolves, i.e. when sellOk is true. -/
def legRuleStep (d : LegDealStatus) (sellOk : Bool) : LegDealStatus × Option (SellKind × ℚ) :=
  match processOneLegDecision d with
  | none => (d, none)
  | some a => (if sellOk then setFlag a.1 d else d, some a)

/-- Inputs of one orchestrator tick as seen by a single leg: the broker
position list, whether the tick takes the all-loosing full-exit branch of
processBothLegs (which does not touch the flags), and whether an invoked
sell resolves successfully. -/
structure LegTickInput where
  posResponse : List (Position × Market)
  allLoosingMode : Bool
  sellOk : Bool

/-- One orchestrator tick restricted to a single leg while a cycle is in the
Position phase: Trader.check runs updatePositions and then processBothLegs,
which either full-exits (all-loosing branch, no flag change) or runs
processOneLeg for the leg. -/
def legTick (d : LegDealStatus) (i : LegTickInput) : LegDealStatus × Option (SellKind × ℚ) :=
  let d1 := legUpdatePositions d i.posResponse
  if i.allLoosingMode then (d1, none) else legRuleStep d1 i.sellOk

/-- Leg state after the first n ticks of a trade cycle. -/
def legStateAt (d : LegDealStatus) (inputs : List LegTickInput) (n : ℕ) : LegDealStatus :=
  (inputs.take n).foldl (fun s i => (legTick s i).1) d

/-- The partial-exit action the leg emits on tick n, if any (none when the
trace has fewer than n ticks). -/
def legActionAt (d : LegDealStatus) (inputs : List LegTickInput) (n : ℕ) :
    Option (Option (SellKind × ℚ)) :=
  (inputs[n]?).map (fun i => (legTick (legStateAt d inputs n) i).2)

/-- Observable events of the session and orchestrator layers: an outgoing
broker request (by operation name), the session re-creation request of the
auth-expiry replay, a backoff sleep of the retry helper, and re-arming of
the orchestrator timer. -/
inductive ApiEvent where
  | request : String → ApiEvent
  | sessionCreate : ApiEvent
  | backoffSleep : ℚ → ApiEvent
  | timerScheduled : ApiEvent
deriving DecidableEq

/-- Is the event a backoff sleep, i.e. a consumed entry of the generic
exponential-backoff retry budget. -/
def isBackoffSleep : ApiEvent → Bool
  | ApiEvent.backoffSleep _ => true
  | _ => false

/-- RetryConfig of src/retry-helper.ts. -/
structure RetryConfig where
  maxRetries : ℕ
  baseDelayMs : ℚ
  maxDelayMs : ℚ
  backoffMultiplier : ℚ
  retryableErrors : Option (List String)

/-- DEFAULT_RETRY_CONFIG of src/retry-helper.ts. -/
def DEFAULT_RETRY_CONFIG : RetryConfig :=
  { maxRetries := 3
    baseDelayMs := 1000
    maxDelayMs := 30000
    backoffMultiplier := 2
    retryableErrors := some
      ["ECONNRESET", "ENOTFOUND", "ECONNREFUSED", "ETIMEDOUT",
       "error.security.oauth-token-invalid", "error.security.client-token-missing"] }

/-- A JavaScript Error as inspected by RetryHelper.isRetryableError: message,
optional code property, optional response.data.errorCode property. -/
structure JsError where
  message : String
  code : Option String
  responseErrorCode : Option String
deriving DecidableEq

/-- RetryHelper.isRetryableError: with no (or an empty) configured list every
error is retryable; otherwise an error is retryable when the lower-cased
message contains the lower-cased entry, or the code or response errorCode
equals the entry. -/
def isRetryableError (e : JsError) (retryableErrors : Option (List String)) : Bool :=
  match retryableErrors with
  | none => true
  | some [] => true
  | some l =>
    l.any (fun r =>
      charListHasSub (r.toList.map Char.toLower) (e.message.toList.map Char.toLower)
      || e.code == some r
      || e.responseErrorCode == some r)

/-- The wrapped terminal failure of RetryHelper.withRetry: an ApiError whose
message names the operation and the total attempt count, with the last
underlying error as cause. -/
structure ApiError where
  message : String
  cause : Option JsError
deriving DecidableEq

/-- Message of the wrapped failure thrown after the retry loop. -/
def retryFailMessage (name : String) (cfg : RetryConfig) : String :=
  name ++ " failed after " ++ toString (cfg.maxRetries + 1) ++ " attempts"

/-- Backoff delay before retrying attempt number attempt:
min(baseDelayMs * backoffMultiplier ^ attempt, maxDelayMs). -/
def retryDelay (cfg : RetryConfig) (attempt : ℕ) : ℚ :=
  min (cfg.baseDelayMs * cfg.backoffMultiplier ^ attempt) cfg.maxDelayMs

/-- Loop body of RetryHelper.withRetry from a given attempt index, with fuel
equal to the number of retries still allowed (maxRetries - attempt): return
the operation result on success; on failure stop with the wrapped failure
when the attempt count is exhausted or the error is not retryable, otherwise
sleep the backoff delay and retry.  The operation is an oracle from attempt
index to outcome. -/
def withRetryAux (op : ℕ → Except JsError T) (name : String) (cfg : RetryConfig) :
    ℕ → ℕ → Except ApiError T × List ApiEvent
  | attempt, fuel =>
    match op attempt with
    | Except.ok v => (Except.ok v, [])
    | Except.error e =>
      if attempt = cfg.maxRetries then
        (Except.error { message := retryFailMessage name cfg, cause := some e }, [])
      else if isRetryableError e cfg.retryableErrors = false then
        (Except.error { message := retryFailMessage name cfg, cause := some e }, [])
      else
        match fuel with
        | 0 => (Except.error { message := retryFailMessage name cfg, cause := some e }, [])
        | fuel' + 1 =>
          let r := withRetryAux op name cfg (attempt + 1) fuel'
          (r.1, ApiEvent.backoffSleep (retryDelay cfg attempt) :: r.2)

/-- RetryHelper.withRetry: run the loop from attempt 0 with maxRetries
retries available. -/
def withRetry (op : ℕ → Except JsError T) (name : String) (cfg : RetryConfig) :
    Except ApiError T × List ApiEvent :=
  withRetryAux op name cfg 0 cfg.maxRetries

/-- Body of a failed HTTP response as inspected by APIClient.call
(error.response.data). -/
structure RespData where
  errorCode : Option String
deriving DecidableEq

/-- A failed HTTP response (error.response): status and optional data. -/
structure FailResponse where
  status : ℕ
  data : Option RespData
deriving DecidableEq

/-- Outcome of one wire-level submit_request. -/
inductive HttpOutcome (T : Type) where
  | ok : T → HttpOutcome T
  | fail : Option FailResponse → String → HttpOutcome T

/-- The wire-level oracle a single APIClient.call interacts with: the first
submission of the request, the session re-creation, and the replay of the
request after re-authentication. -/
structure CallOracle (T : Type) where
  first : HttpOutcome T
  reauth : HttpOutcome Unit
  replay : HttpOutcome T

/-- The two error codes that trigger the transparent reconnect-and-replay of
APIClient.call. -/
def authErrorCodes : List String :=
  ["error.security.oauth-token-invalid", "error.security.client-token-missing"]

/-- Message of the error thrown by the inner catch of the replay path of
APIClient.call: the errorCode read from error.response data when present; a
TypeError when the response or its data is absent (reading a property of
undefined); the string undefined when the data has no errorCode. -/
def replayFailMessage : Option FailResponse → String
  | some { status := _, data := some d } => d.errorCode.getD "undefined"
  | _ => "TypeError"

/-- APIClient.call of the current session client (src/unnamed/part_007 lines
220-296): return response data on success; when the failure carries a
response with status 400 or 401 and a data body whose errorCode is one of
the auth-expiry codes, drop the token, re-create the session with the stored
credentials and replay the identical request once, surfacing the replayed
result (or the replay-path error); any other failure with such a response
surfaces its errorCode; other failures are rethrown.  No part of this path
invokes the retry helper, so the emitted trace never contains a backoff
sleep. -/
def apiClientCall (endpoint : String) (o : CallOracle T) : Except String T × List ApiEvent :=
  match o.first with
  | HttpOutcome.ok d => (Except.ok d, [ApiEvent.request endpoint])
  | HttpOutcome.fail resp msg =>
    match resp with
    | some r =>
      if (r.status = 400 ∨ r.status = 401) ∧ r.data.isSome then
        match r.data with
        | some body =>
          match body.errorCode with
          | some code =>
            if code ∈ authErrorCodes then
              match o.reauth with
              | HttpOutcome.ok _ =>
                match o.replay with
                | HttpOutcome.ok d2 =>
                  (Except.ok d2,
                   [ApiEvent.request endpoint, ApiEvent.sessionCreate, ApiEvent.request endpoint])
                | HttpOutcome.fail resp2 _ =>
                  (Except.error (replayFailMessage resp2),
                   [ApiEvent.request endpoint, ApiEvent.sessionCreate, ApiEvent.request endpoint])
              | HttpOutcome.fail resp2 _ =>
                (Except.error (replayFailMessage resp2),
                 [ApiEvent.request endpoint, ApiEvent.sessionCreate])
            else (Except.error code, [ApiEvent.request endpoint])
          | none => (Except.error "undefined", [ApiEvent.request endpoint])
        | none => (Except.error msg, [ApiEvent.request endpoint])
      else (Except.error msg, [ApiEvent.request endpoint])
    | none => (Except.error msg, [ApiEvent.request endpoint])

/-- Trader.legPosition: the size of the live position of a leg, 0 when the
slot or its position is absent. -/
def legPosition (st : DealingStatus) (leg : LegType) : ℚ :=
  match st.leg leg with
  | some d =>
    match d.position with
    | some p => p.size
    | none => 0
  | none => 0

/-- Summed open size across both legs (the totalPositions reduce of
Trader.processWonState). -/
def totalPositions (st : DealingStatus) : ℚ :=
  legPosition st LegType.Put + legPosition st LegType.Call

/-- The freshly reset aggregate written back by Trader.processWonState. -/
def idleReset : DealingStatus :=
  { status := StatusType.Idle, put := none, call := none }

/-- Trader.processWonState (src/trader.ts lines 550-568): when the summed
open size across both legs is zero, discard both leg states and reset the
aggregate to Idle; otherwise leave the aggregate unchanged. -/
def processWonState (st : DealingStatus) : DealingStatus :=
  if totalPositions st = 0 then idleReset else st

/-- Trader.updatePositions: refresh both legs from the broker position list. -/
def updatePositions (st : DealingStatus) (resp : List (Position × Market)) : DealingStatus :=
  { st with
    put := st.put.map (fun d => legUpdatePositions d resp)
    call := st.call.map (fun d => legUpdatePositions d resp) }

/-- Trader.processDealingState: move to Position once both legs carry a live
position (the positionsComplete reduce; an absent slot counts as not
complete). -/
def processDealingState (st : DealingStatus) : DealingStatus :=
  let complete :=
    (match st.put with | some d => d.position.isSome | none => false)
    && (match st.call with | some d => d.position.isSome | none => false)
  if complete then { st with status := StatusType.Position } else st

/-- Trader.isLoosing: the leg has a live position of positive size, a
truthy bid, and the bid is at or below the entry level times the loosing
level. -/
def isLoosing (st : DealingStatus) (leg : LegType) : Bool :=
  match st.leg leg with
  | some d =>
    match d.position, d.contract.bid with
    | some pos, some bid =>
      decide (0 < pos.size) && decide (bid ≠ 0)
        && decide (bid ≤ d.dealConfirmation.level * loosingLevel)
    | _, _ => false
  | none => false

/-- Trader.allLoosing: both legs are loosing. -/
def allLoosing (st : DealingStatus) : Bool :=
  isLoosing st LegType.Put && isLoosing st LegType.Call

/-- One leg of the Promise.all branch of Trader.processBothLegs: run the
exit-rule engine on the slot; when a rule fires, the closePosition and
tradeConfirm calls are issued; the flag is set only when the confirmation
resolves. -/
def processOneLegRun (slot : Option LegDealStatus) (sellOk : Bool) :
    Option LegDealStatus × List ApiEvent × Option String :=
  match slot with
  | none => (none, [], none)
  | some d =>
    match legRuleStep d sellOk with
    | (d1, none) => (some d1, [], none)
    | (d1, some _) =>
      if sellOk then
        (some d1, [ApiEvent.request "closePosition", ApiEvent.request "tradeConfirm"], none)
      else (some d1, [ApiEvent.request "closePosition"], some "closeLeg rejected")

/-- One leg of the all-loosing branch of Trader.processBothLegs: closeLeg
with fraction 1 relative to the current size; the flags are not touched. -/
def closeLegRun (slot : Option LegDealStatus) (sellOk : Bool) :
    List ApiEvent × Option String :=
  match closeLeg slot 1 true with
  | Except.error e => ([], some e)
  | Except.ok _ =>
    if sellOk then
      ([ApiEvent.request "closePosition", ApiEvent.request "tradeConfirm"], none)
    else ([ApiEvent.request "closePosition"], some "closeLeg rejected")

/-- Trader.processBothLegs: with every leg loosing, exit all positions
sequentially (put first; a rejection skips the remaining leg); otherwise run
processOneLeg on both legs (the two evaluations are independent; a rejection
of either is surfaced after both ran). -/
def processBothLegs (st : DealingStatus) (putSellOk callSellOk : Bool) :
    DealingStatus × List ApiEvent × Option String :=
  if allLoosing st then
    match closeLegRun st.put putSellOk with
    | (evs, some e) => (st, evs, some e)
    | (evs, none) =>
      match closeLegRun st.call callSellOk with
      | (evs2, r) => (st, evs ++ evs2, r)
  else
    match processOneLegRun st.put putSellOk, processOneLegRun st.call callSellOk with
    | (put1, evsP, errP), (call1, evsC, errC) =>
      ({ st with put := put1, call := call1 }, evsP ++ evsC, errP.orElse (fun _ => errC))

/-- The broker requests issued by Trader.getDailyOptionsOf followed by the
underlying-price lookup of Trader.getUnderlyingPrice. -/
def entryFetchEvents : List ApiEvent :=
  [ApiEvent.request "getMarketNavigation", ApiEvent.request "getMarketNavigation",
   ApiEvent.request "getMarketNavigation", ApiEvent.request "getMarketNavigation",
   ApiEvent.request "searchMarkets"]

/-- Mutable orchestrator fields touched by a tick. -/
structure TraderState where
  checkGuard : Bool
  pause : Bool
  started : Bool
  nextEvent : Option ℚ
  delay : ℚ
  delta : ℚ
  budget : ℚ
  globalStatus : DealingStatus

/-- External inputs of one orchestrator tick: the clock, the fetched option
chain (none models an undefined market-navigation result), the computed
underlying price, the broker position list, the outcome of each entry
submission (deal reference and confirmation), and whether each sell
confirmation resolves. -/
structure TickOracle where
  now : ℚ
  options : Option (List Market)
  price : ℚ
  positionsResponse : List (Position × Market)
  putEntry : Except String (String × DealConfirmation)
  callEntry : Except String (String × DealConfirmation)
  putSellOk : Bool
  callSellOk : Bool

/-- A fresh leg state materialised after an entry fill confirmation
(Trader.processIdleState): flags start false, no live position yet. -/
def newLegState (contract : Market) (ref : String) (conf : DealConfirmation) : LegDealStatus :=
  { contract := contract
    dealReference := ref
    dealConfirmation := conf
    position := none
    loosingPartSold := false
    x2PartSold := false
    x3PartSold := false }

/-- Trader.processIdleState (src/trader.ts lines 342-413).  When the event
is closer than the configured delay (in minutes): clear the event, fetch the
option chain and the underlying price, and — when the chain is present and
the price truthy — set the status to Dealing BEFORE resolving the two entry
contracts; resolving either leg to undefined makes the offer sum throw
(modelled by the TypeError result), leaving the status at Dealing with no
order submitted; otherwise size the entry and submit put then call
sequentially, materialising each leg state when its confirmation arrives; a
rejected submission aborts the remainder.  A failed submission is
represented by its createPosition request event.  Otherwise only the
countdown is displayed.  Returns the new state, the emitted events and the
error surfaced to the tick, if any. -/
def processIdleState (st : TraderState) (o : TickOracle) :
    TraderState × List ApiEvent × Option String :=
  let nextEv := st.nextEvent.getD 0
  let eventDelay : ℤ := jsFloor ((nextEv - o.now) / 60000)
  if (eventDelay : ℚ) < st.delay then
    let st1 := { st with nextEvent := none }
    match o.options with
    | some opts =>
      if o.price ≠ 0 then
        let st2 := { st1 with globalStatus := { st1.globalStatus with status := StatusType.Dealing } }
        match findEntryContract opts o.price st.delta LegType.Put,
              findEntryContract opts o.price st.delta LegType.Call with
        | some putC, some callC =>
          let denomo := putC.offer.getD 0 + callC.offer.getD 0
          let _size := entrySize st.budget denomo
          match o.putEntry with
          | Except.ok rc =>
            let st3 := { st2 with globalStatus :=
              { st2.globalStatus with put := some (newLegState putC rc.1 rc.2) } }
            match o.callEntry with
            | Except.ok rc2 =>
              let st4 := { st3 with globalStatus :=
                { st3.globalStatus with call := some (newLegState callC rc2.1 rc2.2) } }
              (st4,
               entryFetchEvents ++
                 [ApiEvent.request "createPosition", ApiEvent.request "tradeConfirm",
                  ApiEvent.request "createPosition", ApiEvent.request "tradeConfirm"],
               none)
            | Except.error e =>
              (st3,
               entryFetchEvents ++
                 [ApiEvent.request "createPosition", ApiEvent.request "tradeConfirm",
                  ApiEvent.request "createPosition"],
               some e)
          | Except.error e =>
            (st2, entryFetchEvents ++ [ApiEvent.request "createPosition"], some e)
        | _, _ => (st2, entryFetchEvents, some "TypeError")
      else (st1, entryFetchEvents, none)
    | none => (st1, entryFetchEvents, none)
  else (st, [], none)

/-- The try block of Trader.check: the sequential if blocks of the tick
(Idle entry, position refresh, Dealing completion, Position rule pass and
idle reset), aborting at the first raised error (which the catch block then
swallows). -/
def checkBody (st : TraderState) (o : TickOracle) : TraderState × List ApiEvent :=
  let (st1, evs1, err1) :=
    if st.nextEvent.isSome ∧ st.globalStatus.status = StatusType.Idle then
      processIdleState st o
    else (st, [], none)
  match err1 with
  | some _ => (st1, evs1)
  | none =>
    let (gs2, evs2) :=
      if st1.globalStatus.status ≠ StatusType.Idle then
        (updatePositions st1.globalStatus o.positionsResponse, [ApiEvent.request "getPositions"])
      else (st1.globalStatus, [])
    let gs3 := if gs2.status = StatusType.Dealing then processDealingState gs2 else gs2
    if gs3.status = StatusType.Position then
      match processBothLegs gs3 o.putSellOk o.callSellOk with
      | (gs4, evs4, some _) => ({ st1 with globalStatus := gs4 }, evs1 ++ evs2 ++ evs4)
      | (gs4, evs4, none) =>
        let gs5 := processWonState gs4
        let evs5 := if totalPositions gs4 = 0 then [ApiEvent.request "getAccounts"] else []
        ({ st1 with globalStatus := gs5 }, evs1 ++ evs2 ++ evs4 ++ evs5)
    else ({ st1 with globalStatus := gs3 }, evs1 ++ evs2)

/-- Trader.check (src/trader.ts lines 654-693): a tick arriving while the
reentrancy guard is held returns immediately — no broker call, no state
change, no timer re-armed; a paused or not-started trader likewise does
nothing; otherwise the guard is taken, the body runs with its errors caught,
and the finally block releases the guard and re-arms the timer. -/
def check (st : TraderState) (o : TickOracle) : TraderState × List ApiEvent :=
  if st.checkGuard then (st, [])
  else if st.pause = false ∧ st.started = true then
    let r := checkBody { st with checkGuard := true } o
    ({ r.1 with checkGuard := false }, r.2 ++ [ApiEvent.timerScheduled])
  else (st, [])

/-- A concrete contract snapshot: strike 4000, bid 35. -/
def sampleMarket : Market :=
  { instrumentName := "FTSE 100 4000 PUT", epic := "EP1", bid := some 35, offer := some 2 }

/-- A concrete fill confirmation at entry level 10 for size 1. -/
def sampleConf : DealConfirmation :=
  { dealReference := "ref1", level := 10, size := 1 }

/-- A concrete live position of size 1. -/
def samplePos : Position :=
  { dealId := "deal1", dealReference := "ref1", level := 10, size := 1 }

/-- A concrete leg: bid 35 on entry level 10 (ratio 3.5), no flag set. -/
def sampleLeg : LegDealStatus :=
  { contract := sampleMarket
    dealReference := "ref1"
    dealConfirmation := sampleConf
    position := some samplePos
    loosingPartSold := false
    x2PartSold := false
    x3PartSold := false }

/-- A concrete leg whose remaining size (1/2) is below the initial confirmed
size (1), as after a previous partial exit. -/
def halfLeg : LegDealStatus :=
  { sampleLeg with position := some { samplePos with size := 1/2 } }

/-- A concrete tick input: empty position list, rule branch, sells resolve. -/
def sampleTick : LegTickInput :=
  { posResponse := [], allLoosingMode := false, sellOk := true }

/-- A call-only option chain entry whose strike 106 sits above price 100. -/
def c6Market : Market :=
  { instrumentName := "FTSE 106 PUT", epic := "E1", bid := some 1, offer := some 2 }

/-- A call contract; an option chain holding only this entry leaves the put
leg unresolved. -/
def noPutMarket : Market :=
  { instrumentName := "FTSE 106 CALL", epic := "E2", bid := some 1, offer := some 2 }

/-- A concrete orchestrator state in the Idle phase with a due event. -/
def c7State : TraderState :=
  { checkGuard := false, pause := false, started := true, nextEvent := some 0,
    delay := 1, delta := 5, budget := 100, globalStatus := idleReset }

/-- A concrete tick oracle whose option chain holds no put contract. -/
def c7Oracle : TickOracle :=
  { now := 0, options := some [noPutMarket], price := 100, positionsResponse := [],
    putEntry := Except.error "unused", callEntry := Except.error "unused",
    putSellOk := true, callSellOk := true }

/-- A concrete call oracle: the first submission fails with status 401 and an
auth-expiry error code, the session re-creation succeeds, the replay returns
42. -/
def c3Oracle : CallOracle ℕ :=
  { first := HttpOutcome.fail
      (some { status := 401, data := some { errorCode := some "error.security.oauth-token-invalid" } })
      "Request failed with status code 401"
    reauth := HttpOutcome.ok ()
    replay := HttpOutcome.ok 42 }

/-- A concrete retryable error (ECONNRESET appears in the message). -/
def c9RetryableError : JsError :=
  { message := "read ECONNRESET", code := none, responseErrorCode := none }

/-- A concrete non-retryable error. -/
def c9FatalError : JsError :=
  { message := "boom", code := none, responseErrorCode := none }

/-- A concrete flat aggregate in the Position phase: the put slot survives
with its position gone, the call slot already discarded. -/
def c8State : DealingStatus :=
  { status := StatusType.Position, put := some { sampleLeg with position := none }, call := none }

/-- C2: a tick that arrives while the reentrancy guard is held is a no-op —
Trader.check returns immediately, so the invocation performs zero broker-API
calls (the event list is empty), changes no trade-cycle state (the state is
returned unchanged) and is not queued (no timerScheduled event is emitted,
the finally block never runs). -/
theorem check_reentrant_tick_noop (st : TraderState) (o : TickOracle)
    (h : st.checkGuard = true) : check st o = (st, []) := by
  simp [check, h]

/-- Witness: check_reentrant_tick_noop applied at a concrete guarded state
and a concrete tick oracle. -/
theorem check_reentrant_tick_noop_witness :
    check { c7State with checkGuard := true } c7Oracle =
      ({ c7State with checkGuard := true }, []) :=
  check_reentrant_tick_noop _ _ rfl

/-- C8: whenever the summed open position size across both legs is exactly
zero while the cycle is in the Position phase, the tick (via
Trader.processWonState) resets the aggregate to Idle with both leg slots
discarded, regardless of which combination of exit rules produced the final
zero (the state is universally quantified). -/
theorem idle_reset_on_flat (st : DealingStatus) (_hst : st.status = StatusType.Position)
    (hz : totalPositions st = 0) : processWonState st = idleReset := by
  simp [processWonState, hz]

/-- Witness: idle_reset_on_flat applied at the concrete flat aggregate
c8State (put slot present with its position discarded, call slot absent). -/
theorem idle_reset_on_flat_witness :
    c8State.status = StatusType.Position ∧ totalPositions c8State = 0 ∧
      processWonState c8State = idleReset := by
  have hz : totalPositions c8State = 0 := by
    norm_num [totalPositions, c8State, legPosition, DealingStatus.leg, sampleLeg]
  exact ⟨rfl, hz, idle_reset_on_flat c8State rfl hz⟩

/-- C10: for every positive budget and positive combined premium, the entry
size of Trader.processIdleState is positive, a multiple of the 1/50 rounding
granularity, and the resulting notional exceeds the budget by less than one
rounding unit of notional (one granule of size valued at the combined
premium); in the concrete scenario of budget 100 and combined offers 2 + 2
the allocation is 100 / 4 = 25 contracts. -/
theorem sizing_bounds (budget denomo : ℚ) (hb : 0 < budget) (hd : 0 < denomo) :
    0 < entrySize budget denomo
    ∧ (∃ n : ℤ, entrySize budget denomo = (n : ℚ) / 50)
    ∧ entrySize budget denomo * denomo ≤ budget + denomo / 50
    ∧ entrySize 100 4 = 25 := by
  refine ⟨?_, ?_, ?_, ?_⟩
  · exact lt_of_lt_of_le (by norm_num : (0:ℚ) < 2/100) (le_max_right _ _)
  · refine ⟨max (jsFloor (budget * 50 / denomo)) 1, ?_⟩
    rw [entrySize, Int.cast_max]
    push_cast
    rw [show (2:ℚ)/100 = (1:ℚ)/50 by norm_num,
      max_div_div_right (show (0:ℚ) ≤ 50 by norm_num)]
  · rcases max_cases (((jsFloor (budget * 50 / denomo) : ℤ) : ℚ) / 50) ((2:ℚ)/100) with
      ⟨he, _⟩ | ⟨he, _⟩
    · rw [entrySize, he]
      have hfle : ((jsFloor (budget * 50 / denomo) : ℤ) : ℚ) ≤ budget * 50 / denomo :=
        Int.floor_le _
      have h1 : ((jsFloor (budget * 50 / denomo) : ℤ) : ℚ) / 50 * denomo ≤
          (budget * 50 / denomo) / 50 * denomo := by gcongr
      have h2 : (budget * 50 / denomo) / 50 * denomo = budget := by
        field_simp
        ring
      have h3 : (0:ℚ) ≤ denomo / 50 := by positivity
      linarith
    · rw [entrySize, he]
      have : (2:ℚ)/100 * denomo = denomo / 50 := by ring
      linarith
  · norm_num [entrySize, jsFloor]

/-- Witness: sizing_bounds applied at budget 100 and combined premium 4. -/
theorem sizing_bounds_witness :
    0 < entrySize 100 4
    ∧ (∃ n : ℤ, entrySize 100 4 = (n : ℚ) / 50)
    ∧ entrySize 100 4 * 4 ≤ 100 + 4 / 50
    ∧ entrySize 100 4 = 25 :=
  sizing_bounds 100 4 (by norm_num) (by norm_num)

/-- C3: a domain API call whose first submission fails with status 400 or
401 and an auth-expiry error code (oauth-token-invalid or
client-token-missing), and whose single re-authentication and replay both
succeed, returns the successful replay result to the caller with no visible
error; the emitted trace is exactly the original request, one session
re-creation with the stored credentials, and one replay of the identical
request, and it contains zero backoff sleeps — the replay consumes nothing
from the generic exponential-backoff retry budget. -/
theorem auth_expiry_replay {T : Type} (endpoint : String) (o : CallOracle T)
    (r : FailResponse) (body : RespData) (code msg : String) (d : T)
    (h1 : o.first = HttpOutcome.fail (some r) msg)
    (h2 : r.status = 400 ∨ r.status = 401)
    (h3 : r.data = some body)
    (h4 : body.errorCode = some code)
    (h5 : code ∈ authErrorCodes)
    (h6 : o.reauth = HttpOutcome.ok ())
    (h7 : o.replay = HttpOutcome.ok d) :
    apiClientCall endpoint o =
      (Except.ok d,
       [ApiEvent.request endpoint, ApiEvent.sessionCreate, ApiEvent.request endpoint])
    ∧ (apiClientCall endpoint o).2.countP isBackoffSleep = 0 := by
  have hmain : apiClientCall endpoint o =
      (Except.ok d,
       [ApiEvent.request endpoint, ApiEvent.sessionCreate, ApiEvent.request endpoint]) := by
    rcases h2 with h2 | h2 <;>
      simp [apiClientCall, h1, h2, h3, h4, h5, h6, h7]
  refine ⟨hmain, ?_⟩
  rw [hmain]
  simp [isBackoffSleep]

/-- Witness: auth_expiry_replay applied at the concrete oracle c3Oracle. -/
theorem auth_expiry_replay_witness :
    apiClientCall "getPositions" c3Oracle =
      (Except.ok 42,
       [ApiEvent.request "getPositions", ApiEvent.sessionCreate, ApiEvent.request "getPositions"])
    ∧ (apiClientCall "getPositions" c3Oracle).2.countP isBackoffSleep = 0 :=
  auth_expiry_replay "getPositions" c3Oracle
    { status := 401, data := some { errorCode := some "error.security.oauth-token-invalid" } }
    { errorCode := some "error.security.oauth-token-invalid" }
    "error.security.oauth-token-invalid" "Request failed with status code 401" 42
    rfl (Or.inr rfl) rfl rfl (by decide) rfl rfl

/-- C4 counterexample: at entry level 10 and bid 35 (ratio 3.5) with a live
position and every flag unset, the claimed order (stop-loss, trailing stop,
profit tier 2, profit tier 3) predicts the tier-2 rule fires; the if/else
chain of Trader.processOneLeg tests tier 3 before tier 2 and fires tier 3. -/
theorem rule_order_counterexample :
    processOneLegDecision sampleLeg = some (SellKind.x3, x3ExitSize)
    ∧ (processOneLegDecision sampleLeg).map Prod.fst ≠ some SellKind.x2 := by
  have h : processOneLegDecision sampleLeg = some (SellKind.x3, x3ExitSize) := by
    norm_num [processOneLegDecision, sampleLeg, sampleMarket, sampleConf, samplePos,
      loosingLevel, x3WinningLevel, x2WinningLevel]
  exact ⟨h, by rw [h]; simp⟩

/-- C4 corrected: on every leg with a live position and a positive entry
level, at most one exit rule fires per tick and the rule that fires is the
first in the order stop-loss, profit tier 3, profit tier 2 whose
strict-inequality condition holds and whose one-shot flag is unset — in
particular a bid exactly equal to a tier threshold times the entry level
fires nothing; formally, Trader.processOneLeg agrees with the first-match
engine ruleEngineSpecOrdered written in that order with the spec-side
multiplicative conditions. -/
theorem rule_order_amended (d : LegDealStatus) (hl : 0 < d.dealConfirmation.level) :
    processOneLegDecision d = ruleEngineSpecOrdered d := by
  cases hp : d.position with
  | none => simp [processOneLegDecision, ruleEngineSpecOrdered, hp]
  | some pos =>
    cases hb : d.contract.bid with
    | none => simp [processOneLegDecision, ruleEngineSpecOrdered, hp, hb]
    | some bid =>
      have e1 : bid / d.dealConfirmation.level < loosingLevel ↔
          bid < d.dealConfirmation.level * loosingLevel := by
        rw [div_lt_iff₀ hl, mul_comm]
      have e2 : x3WinningLevel < bid / d.dealConfirmation.level ↔
          d.dealConfirmation.level * x3WinningLevel < bid := by
        rw [lt_div_iff₀ hl, mul_comm]
      have e3 : x2WinningLevel < bid / d.dealConfirmation.level ↔
          d.dealConfirmation.level * x2WinningLevel < bid := by
        rw [lt_div_iff₀ hl, mul_comm]
      simp only [processOneLegDecision, ruleEngineSpecOrdered, hp, hb, e1, e2, e3]

/-- Witness: rule_order_amended applied at the concrete leg sampleLeg (entry
level 10). -/
theorem rule_order_amended_witness :
    processOneLegDecision sampleLeg = ruleEngineSpecOrdered sampleLeg :=
  rule_order_amended sampleLeg (by norm_num [sampleLeg, sampleConf])

/-- C5 counterexample: a rule-engine partial exit (Trader.closeLeg with
posRelative false) on a leg with initial confirmed size 1, remaining size
1/2 and exit fraction 1/2 requests size 1/2 — half of the initial size — so
the requested size is not the claimed value 1/4 obtained from the currently
remaining size rounded and clamped. -/
theorem sell_sizing_counterexample :
    (closeLeg (some halfLeg) (1/2) false).toOption.map CloseRequest.size = some (1/2)
    ∧ specSellSize (1/2) (1/2) = 1/4
    ∧ ((1:ℚ)/2) ≠ ((1:ℚ)/4) := by
  refine ⟨?_, ?_, by norm_num⟩
  · norm_num [closeLeg, halfLeg, sampleLeg, sampleConf, samplePos, sampleMarket, round2,
      jsRound, Int.floor_eq_iff, Except.toOption]
  · norm_num [specSellSize, round2, jsRound, Int.floor_eq_iff]

/-- C5 corrected: every rule-engine partial exit invokes Trader.closeLeg
with posRelative false, so the requested size is the exit fraction of the
INITIAL confirmed size, rounded to two decimal places and clamped above at
the currently remaining position size (no 0.01 lower clamp on this path);
consequently the requested sell size never exceeds the available position
size. -/
theorem sell_sizing_amended (d : LegDealStatus) (pos : Position) (percent : ℚ)
    (hp : d.position = some pos) (hs : 0 < pos.size) :
    closeLeg (some d) percent false =
      Except.ok
        { dealId := pos.dealId
          size := if pos.size < round2 (d.dealConfirmation.size * percent) then pos.size
                  else round2 (d.dealConfirmation.size * percent)
          level := d.contract.bid.map (fun b => b / 2) }
    ∧ (∀ req, closeLeg (some d) percent false = Except.ok req → req.size ≤ pos.size) := by
  have hmain : closeLeg (some d) percent false =
      Except.ok
        { dealId := pos.dealId
          size := if pos.size < round2 (d.dealConfirmation.size * percent) then pos.size
                  else round2 (d.dealConfirmation.size * percent)
          level := d.contract.bid.map (fun b => b / 2) } := by
    simp [closeLeg, hp, hs]
  refine ⟨hmain, ?_⟩
  intro req hreq
  rw [hmain] at hreq
  simp only [Except.ok.injEq] at hreq
  subst hreq
  by_cases h : pos.size < round2 (d.dealConfirmation.size * percent)
  · simp [h]
  · simp [h]
    exact le_of_not_lt h

/-- Witness: sell_sizing_amended applied at the concrete leg halfLeg
(initial size 1, remaining size 1/2) with fraction 1/2. -/
theorem sell_sizing_amended_witness :
    closeLeg (some halfLeg) (1/2) false =
      Except.ok
        { dealId := ({ samplePos with size := 1/2 } : Position).dealId
          size := if ({ samplePos with size := 1/2 } : Position).size <
                      round2 (halfLeg.dealConfirmation.size * (1/2)) then
                    ({ samplePos with size := 1/2 } : Position).size
                  else round2 (halfLeg.dealConfirmation.size * (1/2))
          level := halfLeg.contract.bid.map (fun b => b / 2) }
    ∧ (∀ req, closeLeg (some halfLeg) (1/2) false = Except.ok req →
        req.size ≤ ({ samplePos with size := 1/2 } : Position).size) :=
  sell_sizing_amended halfLeg { samplePos with size := 1/2 } (1/2) rfl (by norm_num [samplePos])

/-- C7 counterexample: with a due event, a present option chain holding no
put-named contract and a nonzero price, Trader.processIdleState submits no
entry order and surfaces an error, but the trade cycle is left in the
Dealing state — not back in Idle as the claim states — because the status is
set to Dealing before the two entry contracts are resolved. -/
theorem entry_abort_counterexample :
    processIdleState c7State c7Oracle =
      ({ c7State with
          nextEvent := none
          globalStatus := { c7State.globalStatus with status := StatusType.Dealing } },
       entryFetchEvents, some "TypeError")
    ∧ (processIdleState c7State c7Oracle).1.globalStatus.status ≠ StatusType.Idle
    ∧ (processIdleState c7State c7Oracle).1.globalStatus.put = none
    ∧ (processIdleState c7State c7Oracle).1.globalStatus.call = none
    ∧ (processIdleState c7State c7Oracle).2.1.countP
        (fun e => e == ApiEvent.request "createPosition") = 0 := by
  have h : processIdleState c7State c7Oracle =
      ({ c7State with
          nextEvent := none
          globalStatus := { c7State.globalStatus with status := StatusType.Dealing } },
       entryFetchEvents, some "TypeError") := by
    norm_num [processIdleState, c7State, c7Oracle, jsFloor, idleReset, findEntryContract,
      noPutMarket, legSuffix, charListEndsWith, sortDesc]
  refine ⟨h, ?_, ?_, ?_, ?_⟩ <;> rw [h]
  · decide
  · rfl
  · rfl
  · rfl

/-- C7 corrected: if during entry from the Idle state either leg cannot be
resolved, the orchestrator submits no entry order for either leg (zero
createPosition requests), surfaces an error (the offer-sum TypeError aborts
the entry), and both leg slots stay absent — it never partially enters — but
the trade cycle is left in the Dealing state (set before resolution), not
back in Idle. -/
theorem entry_abort_amended (st : TraderState) (o : TickOracle) (t : ℚ) (opts : List Market)
    (hne : st.nextEvent = some t)
    (hdue : ((jsFloor ((t - o.now) / 60000) : ℤ) : ℚ) < st.delay)
    (hopts : o.options = some opts)
    (hprice : o.price ≠ 0)
    (hput : st.globalStatus.put = none) (hcall : st.globalStatus.call = none)
    (hmiss : findEntryContract opts o.price st.delta LegType.Put = none ∨
             findEntryContract opts o.price st.delta LegType.Call = none) :
    processIdleState st o =
      ({ st with
          nextEvent := none
          globalStatus := { st.globalStatus with status := StatusType.Dealing } },
       entryFetchEvents, some "TypeError")
    ∧ (processIdleState st o).1.globalStatus.put = none
    ∧ (processIdleState st o).1.globalStatus.call = none
    ∧ (processIdleState st o).2.1.countP
        (fun e => e == ApiEvent.request "createPosition") = 0 := by
  have h : processIdleState st o =
      ({ st with
          nextEvent := none
          globalStatus := { st.globalStatus with status := StatusType.Dealing } },
       entryFetchEvents, some "TypeError") := by
    rcases hmiss with hm | hm
    · cases hc : findEntryContract opts o.price st.delta LegType.Call <;>
        simp [processIdleState, hne, hdue, hopts, hprice, hm, hc]
    · cases hc : findEntryContract opts o.price st.delta LegType.Put <;>
        simp [processIdleState, hne, hdue, hopts, hprice, hm, hc]
  refine ⟨h, ?_, ?_, ?_⟩ <;> rw [h]
  · exact hput
  · exact hcall
  · rfl

/-- Witness: entry_abort_amended applied at the concrete Idle state c7State
and the put-free option chain of c7Oracle. -/
theorem entry_abort_amended_witness :
    processIdleState c7State c7Oracle =
      ({ c7State with
          nextEvent := none
          globalStatus := { c7State.globalStatus with status := StatusType.Dealing } },
       entryFetchEvents, some "TypeError")
    ∧ (processIdleState c7State c7Oracle).1.globalStatus.put = none
    ∧ (processIdleState c7State c7Oracle).1.globalStatus.call = none
    ∧ (processIdleState c7State c7Oracle).2.1.countP
        (fun e => e == ApiEvent.request "createPosition") = 0 :=
  entry_abort_amended c7State c7Oracle 0 [noPutMarket] rfl
    (by norm_num [jsFloor, c7State, c7Oracle]) rfl (by norm_num [c7Oracle]) rfl rfl
    (Or.inl (by decide))

/-- Inserting into a list preserves exactly the elements. -/
theorem mem_insertDesc (key : Market → ℚ) (x a : Market) (l : List Market) :
    a ∈ insertDesc key x l ↔ a = x ∨ a ∈ l := by
  induction l with
  | nil => simp [insertDesc]
  | cons y ys ih =>
    by_cases h : key y ≤ key x
    · simp [insertDesc, h]
    · simp [insertDesc, h, ih]
      tauto

/-- Insertion never yields the empty list. -/
theorem insertDesc_ne_nil (key : Market → ℚ) (x : Market) (l : List Market) :
    insertDesc key x l ≠ [] := by
  cases l with
  | nil => simp [insertDesc]
  | cons y ys =>
    by_cases h : key y ≤ key x <;> simp [insertDesc, h]

/-- Insertion preserves the last-element-is-minimal property. -/
theorem lastIsMin_insertDesc (key : Market → ℚ) (x : Market) (s : List Market)
    (h : lastIsMin key s) : lastIsMin key (insertDesc key x s) := by
  induction s with
  | nil =>
    intro z hz y hy
    simp [insertDesc] at hz hy
    subst hz
    subst hy
    exact le_refl _
  | cons b bs ih =>
    by_cases hb : key b ≤ key x
    · have hrw : insertDesc key x (b :: bs) = x :: b :: bs := by
        simp [insertDesc, hb]
      rw [hrw]
      intro z hz y hy
      rw [List.getLast?_cons_cons] at hz
      have hmin := h z hz
      rcases List.mem_cons.mp hy with rfl | hy2
      · exact le_trans (hmin b (List.mem_cons_self b bs)) hb
      · exact hmin y hy2
    · have hrw : insertDesc key x (b :: bs) = b :: insertDesc key x bs := by
        simp [insertDesc, hb]
      rw [hrw]
      have hbs : lastIsMin key bs := by
        cases bs with
        | nil => intro z hz; simp at hz
        | cons c cs =>
          intro z hz y hy
          have hz2 : (b :: c :: cs).getLast? = some z := by
            rw [List.getLast?_cons_cons]; exact hz
          exact h z hz2 y (List.mem_cons_of_mem b hy)
      have hins := ih hbs
      intro z hz y hy
      cases hl : insertDesc key x bs with
      | nil => exact absurd hl (insertDesc_ne_nil key x bs)
      | cons c cs =>
        rw [hl, List.getLast?_cons_cons] at hz
        have hz2 : (insertDesc key x bs).getLast? = some z := by rw [hl]; exact hz
        have hmin := hins z hz2
        rcases List.mem_cons.mp hy with rfl | hy2
        · have hzx : key z ≤ key x :=
            hmin x ((mem_insertDesc key x x bs).mpr (Or.inl rfl))
          exact le_trans hzx (le_of_lt (lt_of_not_le hb))
        · exact hmin y hy2

/-- The last element of the descending sort has the minimal key. -/
theorem lastIsMin_sortDesc (key : Market → ℚ) : ∀ l : List Market, lastIsMin key (sortDesc key l)
  | [] => by intro z hz; simp [sortDesc] at hz
  | x :: xs => lastIsMin_insertDesc key x _ (lastIsMin_sortDesc key xs)

/-- Sorting preserves exactly the elements. -/
theorem mem_sortDesc (key : Market → ℚ) (a : Market) (l : List Market) :
    a ∈ sortDesc key l ↔ a ∈ l := by
  induction l with
  | nil => simp [sortDesc]
  | cons x xs ih => simp [sortDesc, mem_insertDesc, ih]

/-- C6 counterexample: with price 100 and delta 5, an option chain holding a
single put-named contract at strike 106 — strictly above the price — is
selected for the put leg: Trader.findEntryContract applies no strike-side
filter, refuting the claim that the put is drawn only from strikes strictly
below the price. -/
theorem strike_side_counterexample :
    findEntryContract [c6Market] 100 5 LegType.Put = some c6Market
    ∧ strikeOf c6Market = some 106
    ∧ ¬((106:ℚ) < 100) := by
  refine ⟨by decide, by decide, by norm_num⟩

/-- C6 corrected: entry selection is deterministic (a pure function of the
instrument list and prices), but the put and call candidates are filtered
only by the PUT/CALL name suffix with no strike-side constraint; the chosen
contract is one of the suffix-filtered contracts and minimises
|strike − (price ± delta)| among them. -/
theorem strike_selection_amended (options : List Market) (price delta : ℚ) (leg : LegType)
    (m : Market) (h : findEntryContract options price delta leg = some m) :
    m ∈ options.filter (fun mk => charListEndsWith mk.instrumentName.toList (legSuffix leg).toList)
    ∧ ∀ m' ∈ options.filter
        (fun mk => charListEndsWith mk.instrumentName.toList (legSuffix leg).toList),
        strikeDistance price delta leg m ≤ strikeDistance price delta leg m' := by
  unfold findEntryContract at h
  constructor
  · have hx : m ∈ (sortDesc (strikeDistance price delta leg)
        (options.filter
          (fun mk => charListEndsWith mk.instrumentName.toList (legSuffix leg).toList))).getLast? := by
      rw [Option.mem_def]
      exact h
    obtain ⟨hne, rfl⟩ := List.mem_getLast?_eq_getLast hx
    exact (mem_sortDesc _ _ _).mp (List.getLast_mem hne)
  · intro m' hm'
    exact lastIsMin_sortDesc (strikeDistance price delta leg) _ m h m'
      ((mem_sortDesc _ _ _).mpr hm')

/-- Witness: strike_selection_amended applied at the singleton chain holding
c6Market. -/
theorem strike_selection_amended_witness :
    c6Market ∈ [c6Market].filter
      (fun mk => charListEndsWith mk.instrumentName.toList (legSuffix LegType.Put).toList)
    ∧ ∀ m' ∈ [c6Market].filter
        (fun mk => charListEndsWith mk.instrumentName.toList (legSuffix LegType.Put).toList),
        strikeDistance 100 5 LegType.Put c6Market ≤ strikeDistance 100 5 LegType.Put m' :=
  strike_selection_amended [c6Market] 100 5 LegType.Put c6Market (by decide)

/-- Setting any flag preserves every flag already set. -/
theorem flagOf_setFlag (k j : SellKind) (d : LegDealStatus) (h : flagOf k d = true) :
    flagOf k (setFlag j d) = true := by
  cases k <;> cases j <;> simp_all [flagOf, setFlag]

/-- The position refresh of a tick never changes the one-shot flags. -/
theorem flagOf_legUpdatePositions (k : SellKind) (d : LegDealStatus)
    (resp : List (Position × Market)) :
    flagOf k (legUpdatePositions d resp) = flagOf k d := by
  unfold legUpdatePositions
  cases h : resp.find? (fun pm => pm.1.dealReference == d.dealConfirmation.dealReference) <;>
    cases k <;> simp [flagOf]

/-- A rule fires only while its one-shot flag is unset. -/
theorem decision_needs_unset_flag (d : LegDealStatus) (k : SellKind) (f : ℚ)
    (h : processOneLegDecision d = some (k, f)) : flagOf k d = false := by
  unfold processOneLegDecision at h
  cases hp : d.position with
  | none => rw [hp] at h; simp at h
  | some pos =>
    cases hb : d.contract.bid with
    | none => rw [hp, hb] at h; simp at h
    | some bid =>
      rw [hp, hb] at h
      dsimp only at h
      split_ifs at h with h0 h1 h2 h3
      · simp only [Option.some.injEq, Prod.mk.injEq] at h
        obtain ⟨rfl, _⟩ := h
        simp [flagOf, h1.2]
      · simp only [Option.some.injEq, Prod.mk.injEq] at h
        obtain ⟨rfl, _⟩ := h
        simp [flagOf, h2.2]
      · simp only [Option.some.injEq, Prod.mk.injEq] at h
        obtain ⟨rfl, _⟩ := h
        simp [flagOf, h3.2]

/-- One orchestrator tick never clears a set flag. -/
theorem legTick_flag_mono (k : SellKind) (d : LegDealStatus) (i : LegTickInput)
    (h : flagOf k d = true) : flagOf k (legTick d i).1 = true := by
  have h1 : flagOf k (legUpdatePositions d i.posResponse) = true := by
    rw [flagOf_legUpdatePositions]; exact h
  unfold legTick
  by_cases hm : i.allLoosingMode
  · simpa [hm] using h1
  · simp only [hm, Bool.false_eq_true, if_false]
    unfold legRuleStep
    cases hd : processOneLegDecision (legUpdatePositions d i.posResponse) with
    | none => simpa [hd] using h1
    | some a =>
      simp only [hd]
      by_cases hs : i.sellOk
      · simpa [hs] using flagOf_setFlag k a.1 _ h1
      · simpa [hs] using h1

/-- Once a flag is set, the tick never invokes the sell that flag gates. -/
theorem legTick_flag_gate (k : SellKind) (d : LegDealStatus) (i : LegTickInput) (f : ℚ)
    (h : flagOf k d = true) : (legTick d i).2 ≠ some (k, f) := by
  have h1 : flagOf k (legUpdatePositions d i.posResponse) = true := by
    rw [flagOf_legUpdatePositions]; exact h
  unfold legTick
  by_cases hm : i.allLoosingMode
  · simp [hm]
  · simp only [hm, Bool.false_eq_true, if_false]
    unfold legRuleStep
    cases hd : processOneLegDecision (legUpdatePositions d i.posResponse) with
    | none => simp [hd]
    | some a =>
      simp only [hd]
      intro heq
      have ha : a = (k, f) := by
        by_cases hs : i.sellOk <;> simp [hs] at heq <;> exact heq
      rw [ha] at hd
      have := decision_needs_unset_flag _ k f hd
      rw [h1] at this
      exact absurd this (by simp)

/-- Unfolding one step of the tick trace. -/
theorem legStateAt_succ (d : LegDealStatus) (inputs : List LegTickInput) (n : ℕ) :
    legStateAt d inputs (n+1) =
      (match inputs[n]? with
       | some i => (legTick (legStateAt d inputs n) i).1
       | none => legStateAt d inputs n) := by
  unfold legStateAt
  rw [List.take_succ, List.foldl_append]
  cases h : inputs[n]? <;> simp [h]

/-- Flags are monotone along any tick trace. -/
theorem legStateAt_flag_mono (k : SellKind) (d : LegDealStatus) (inputs : List LegTickInput) :
    ∀ m n, m ≤ n → flagOf k (legStateAt d inputs m) = true →
      flagOf k (legStateAt d inputs n) = true := by
  intro m n hmn h
  induction n with
  | zero =>
    have : m = 0 := Nat.le_zero.mp hmn
    rw [this] at h
    exact h
  | succ n ih =>
    by_cases hm : m = n + 1
    · rw [hm] at h
      exact h
    · have hle : m ≤ n := Nat.lt_succ_iff.mp (lt_of_le_of_ne hmn hm)
      have h2 := ih hle
      rw [legStateAt_succ]
      cases hg : inputs[n]? with
      | none => exact h2
      | some i => exact legTick_flag_mono k _ i h2

/-- C1: over every sequence of orchestrator ticks within one trade cycle,
each one-shot exit flag of a leg is monotone along the trace (once true it
is never reset while the cycle is in progress, so it transitions false→true
at most once: two distinct false→true transitions are impossible), and once
a flag is true the partial-exit sell action it gates is never invoked again
for that leg in that cycle.  Flags are touched by no tick operation other
than the rule engine (position refresh and the all-loosing full exit leave
them unchanged), so the legTick trace covers the whole cycle. -/
theorem flags_one_shot (k : SellKind) (d : LegDealStatus) (inputs : List LegTickInput) :
    (∀ m n, m ≤ n → flagOf k (legStateAt d inputs m) = true →
      flagOf k (legStateAt d inputs n) = true)
    ∧ (∀ m n, m < n →
        (flagOf k (legStateAt d inputs m) = false ∧
          flagOf k (legStateAt d inputs (m+1)) = true) →
        ¬(flagOf k (legStateAt d inputs n) = false ∧
          flagOf k (legStateAt d inputs (n+1)) = true))
    ∧ (∀ n i f, flagOf k (legStateAt d inputs n) = true → inputs[n]? = some i →
        (legTick (legStateAt d inputs n) i).2 ≠ some (k, f)) := by
  refine ⟨legStateAt_flag_mono k d inputs, ?_, ?_⟩
  · rintro m n hmn ⟨_, hm1⟩ ⟨hn0, _⟩
    have htr : flagOf k (legStateAt d inputs n) = true :=
      legStateAt_flag_mono k d inputs (m+1) n (Nat.succ_le_of_lt hmn) hm1
    rw [hn0] at htr
    exact Bool.false_ne_true htr
  · intro n i f hflag _
    exact legTick_flag_gate k _ i f hflag

/-- Witness: flags_one_shot applied at a concrete leg whose tier-2 flag is
already set, over a one-tick trace: the flag stays set on the next state. -/
theorem flags_one_shot_witness :
    flagOf SellKind.x2 (legStateAt { sampleLeg with x2PartSold := true } [sampleTick] 0) = true
    ∧ flagOf SellKind.x2 (legStateAt { sampleLeg with x2PartSold := true } [sampleTick] 1) = true := by
  have h0 : flagOf SellKind.x2
      (legStateAt { sampleLeg with x2PartSold := true } [sampleTick] 0) = true := rfl
  exact ⟨h0, (flags_one_shot SellKind.x2 { sampleLeg with x2PartSold := true } [sampleTick]).1
    0 1 (by norm_num) h0⟩

/-- A successful attempt returns its value at once with no sleep. -/
theorem withRetryAux_ok {T : Type} (op : ℕ → Except JsError T) (name : String)
    (cfg : RetryConfig) (attempt fuel : ℕ) (v : T) (h : op attempt = Except.ok v) :
    withRetryAux op name cfg attempt fuel = (Except.ok v, []) := by
  cases fuel <;> (unfold withRetryAux; rw [h])

/-- A retryable failure before exhaustion sleeps the backoff delay and
continues with the next attempt. -/
theorem withRetryAux_step {T : Type} (op : ℕ → Except JsError T) (name : String)
    (cfg : RetryConfig) (attempt fuel : ℕ) (e : JsError)
    (h : op attempt = Except.error e) (hne : attempt ≠ cfg.maxRetries)
    (hr : isRetryableError e cfg.retryableErrors = true) :
    withRetryAux op name cfg attempt (fuel + 1) =
      ((withRetryAux op name cfg (attempt + 1) fuel).1,
       ApiEvent.backoffSleep (retryDelay cfg attempt)
         :: (withRetryAux op name cfg (attempt + 1) fuel).2) := by
  conv_lhs => unfold withRetryAux
  rw [h]
  simp [hne, hr]

/-- A non-retryable failure stops at once with the wrapped failure and no
sleep. -/
theorem withRetryAux_abort {T : Type} (op : ℕ → Except JsError T) (name : String)
    (cfg : RetryConfig) (attempt fuel : ℕ) (e : JsError)
    (h : op attempt = Except.error e)
    (hr : isRetryableError e cfg.retryableErrors = false) :
    withRetryAux op name cfg attempt fuel =
      (Except.error { message := retryFailMessage name cfg, cause := some e }, []) := by
  cases fuel <;> (conv_lhs => unfold withRetryAux) <;> rw [h] <;>
    by_cases hm : attempt = cfg.maxRetries <;> simp [hm, hr]

/-- When every attempt fails with a retryable error, the loop sleeps once
per remaining retry and ends with the wrapped failure carrying the last
error. -/
theorem withRetryAux_exhausted {T : Type} (op : ℕ → Except JsError T) (name : String)
    (cfg : RetryConfig) (es : ℕ → JsError)
    (hop : ∀ i, op i = Except.error (es i))
    (hr : ∀ i, isRetryableError (es i) cfg.retryableErrors = true) :
    ∀ fuel attempt, attempt + fuel = cfg.maxRetries →
      withRetryAux op name cfg attempt fuel =
        (Except.error { message := retryFailMessage name cfg, cause := some (es cfg.maxRetries) },
         (List.range fuel).map (fun j => ApiEvent.backoffSleep (retryDelay cfg (attempt + j)))) := by
  intro fuel
  induction fuel with
  | zero =>
    intro attempt h
    have heq : attempt = cfg.maxRetries := by omega
    conv_lhs => unfold withRetryAux
    rw [hop attempt]
    simp [heq]
  | succ f ih =>
    intro attempt h
    have hne : attempt ≠ cfg.maxRetries := by omega
    rw [withRetryAux_step op name cfg attempt f (es attempt) (hop attempt) hne (hr attempt)]
    rw [ih (attempt + 1) (by omega)]
    simp only [Prod.mk.injEq, true_and]
    have harg : ∀ j : ℕ, attempt + 1 + j = attempt + Nat.succ j := by omega
    rw [List.range_succ_eq_map, List.map_cons, List.map_map]
    simp [Function.comp, harg]

/-- C9: the backoff executor RetryHelper.withRetry: a failure matching the
retryable predicate occurring before the attempt count reaches maxRetries is
followed by a sleep of min(baseDelay × multiplier ^ attempt, maxDelay) and a
retry of the next attempt; a non-retryable failure aborts immediately with
no delay; and when every attempt fails the wrapped ApiError naming the
operation and the attempt count (retryFailMessage) is propagated with the
last error as cause, after one backoff sleep per retry. -/
theorem withRetry_behaviour {T : Type} (op : ℕ → Except JsError T) (name : String)
    (cfg : RetryConfig) (e0 : JsError) (es : ℕ → JsError) :
    (∀ attempt fuel, op attempt = Except.error e0 → attempt ≠ cfg.maxRetries →
      isRetryableError e0 cfg.retryableErrors = true →
      withRetryAux op name cfg attempt (fuel + 1) =
        ((withRetryAux op name cfg (attempt + 1) fuel).1,
         ApiEvent.backoffSleep
             (min (cfg.baseDelayMs * cfg.backoffMultiplier ^ attempt) cfg.maxDelayMs)
           :: (withRetryAux op name cfg (attempt + 1) fuel).2))
    ∧ (∀ attempt fuel, op attempt = Except.error e0 →
      isRetryableError e0 cfg.retryableErrors = false →
      withRetryAux op name cfg attempt fuel =
        (Except.error { message := retryFailMessage name cfg, cause := some e0 }, []))
    ∧ ((∀ i, op i = Except.error (es i)) →
      (∀ i, isRetryableError (es i) cfg.retryableErrors = true) →
      withRetry op name cfg =
        (Except.error { message := retryFailMessage name cfg, cause := some (es cfg.maxRetries) },
         (List.range cfg.maxRetries).map (fun j => ApiEvent.backoffSleep (retryDelay cfg j)))) := by
  refine ⟨?_, ?_, ?_⟩
  · intro attempt fuel h hne hr
    simpa [retryDelay] using withRetryAux_step op name cfg attempt fuel e0 h hne hr
  · intro attempt fuel h hr
    exact withRetryAux_abort op name cfg attempt fuel e0 h hr
  · intro hop hr
    have := withRetryAux_exhausted op name cfg es hop hr cfg.maxRetries 0 (by omega)
    simpa [withRetry] using this

/-- Witness: withRetry_behaviour at a concrete operation that always fails
with a retryable ECONNRESET error under the default configuration. -/
theorem withRetry_behaviour_witness :
    withRetry (fun _ => (Except.error c9RetryableError : Except JsError ℕ)) "getPositions"
      DEFAULT_RETRY_CONFIG =
      (Except.error { message := retryFailMessage "getPositions" DEFAULT_RETRY_CONFIG,
                      cause := some c9RetryableError },
       (List.range DEFAULT_RETRY_CONFIG.maxRetries).map
         (fun j => ApiEvent.backoffSleep (retryDelay DEFAULT_RETRY_CONFIG j))) :=
  (withRetry_behaviour (fun _ => Except.error c9RetryableError) "getPositions"
      DEFAULT_RETRY_CONFIG c9RetryableError (fun _ => c9RetryableError)).2.2
    (fun _ => rfl) (fun _ => by decide)

end NewsTrader
